import Mathlib

/-!
Shallow embedding of the CRPTBOT auction engine (TypeScript + Redis Lua),
covering the bid-admission script (`lua/makeBet.lua`), the bid-deletion
script (`lua/deleteBet.lua`), the transaction ledger (`src/models/transaction`
part of `src/models/user.ts`), the round settlement and anti-snipe logic
(`src/services/rounds.ts`, idempotent revision), and the rate-limit
middleware (`src/middleware/rateLimit.ts`).

Machine numbers are embedded as `Nat`/`Int` (all values involved stay far
below 2^53, where the engines' number types are exact integers).  Redis
hashes and string slots become functions `String → Option _`; the one
ranked set that settlement must enumerate becomes an association list.
The idempotency slot physically stores the pipe-separated string
`code|amount|previousBet|diff|status`; since writer and reader are the two
ends of a bijection on well-formed records, the slot is embedded as the
parsed record itself.  Key TTLs (24 h idempotency, rate-limit window) are
not advanced in the model: every claim is about behaviour within a TTL
window.
-/

namespace CRPTBOT

/-- Pointwise update of a string-keyed map (models `HSET`/`SET` on one key). -/
def upd {α : Type} (f : String → α) (k : String) (v : α) : String → α :=
  fun x => if x = k then v else f x

/-- Update of a doubly keyed map (outer key, then field). -/
def upd2 (f : String → String → Option Nat) (k1 k2 : String) (v : Option Nat) :
    String → String → Option Nat :=
  fun x => if x = k1 then upd (f x) k2 v else f x

/-! ### Constants of `lua/makeBet.lua` and `src/services/bets.ts` -/

/-- `MAX_TS = 9999999999` — the largest encodable first-bid second. -/
def MAX_TS : Nat := 9999999999

/-- `MULTIPLIER = 10000000000 = 10^10` — the amount shift of composite scores. -/
def MULTIPLIER : Nat := 10000000000

/-- Status strings returned by the makeBet script (`BetStatus` in bets.ts). -/
inductive BetStatus
  | OK
  | SAME
  | CANNOT_DECREASE
  | INSUFFICIENT_BALANCE
deriving DecidableEq, Repr

/-- The record the script stores in the idempotency slot
(`code|amount|previousBet|diff|status`, parsed form). -/
structure Stored where
  code : Int
  amount : Nat
  previousBet : Nat
  diff : Nat
  status : BetStatus
deriving DecidableEq, Repr

/-- The 6-tuple the script returns: stored fields plus the `IDEMPOTENT` flag. -/
structure MakeBetResult where
  code : Int
  amount : Nat
  previousBet : Nat
  diff : Nat
  status : BetStatus
  idempotent : Bool
deriving DecidableEq, Repr

/-- The Redis state visible to the two Lua scripts:
`userBets u a` is `HGET user:{u}:bets a`; `zscore a u` is
`ZSCORE auction:{a}:bets u`; `idem k` is the idempotency slot `idem:{k}`. -/
structure FS where
  userBets : String → String → Option Nat
  zscore : String → String → Option Nat
  idem : String → Option Stored

/-- `lua/makeBet.lua`: the atomic, idempotent bid-admission script.
Arguments mirror `ARGV`; the result pairs the returned tuple with the
post-state of the three keys the script may touch. -/
def makeBet (s : FS) (auctionId userId : String) (newAmount : Nat)
    (availableBalance : Int) (timestampMs : Nat) (idemKey : String) :
    MakeBetResult × FS :=
  match (if idemKey ≠ "" then s.idem idemKey else none) with
  | some st =>
      -- replay: return the stored result plus the IDEMPOTENT flag, no writes
      (⟨st.code, st.amount, st.previousBet, st.diff, st.status, true⟩, s)
  | none =>
      let oldBet := (s.userBets userId auctionId).getD 0
      if oldBet = newAmount then
        let st : Stored := ⟨0, oldBet, oldBet, 0, .SAME⟩
        let s1 : FS :=
          if idemKey ≠ "" then { s with idem := upd s.idem idemKey (some st) } else s
        (⟨0, oldBet, oldBet, 0, .SAME, false⟩, s1)
      else if newAmount < oldBet then
        -- diff < 0: validation error, nothing stored
        (⟨-2, oldBet, oldBet, 0, .CANNOT_DECREASE, false⟩, s)
      else
        let diff := newAmount - oldBet
        if availableBalance + (oldBet : Int) < (newAmount : Int) then
          -- insufficient available balance, nothing stored
          (⟨-1, 0, oldBet, diff, .INSUFFICIENT_BALANCE, false⟩, s)
        else
          let timestampSeconds := timestampMs / 1000
          let betTimestamp :=
            match s.zscore auctionId userId with
            | some oldScore => MAX_TS - oldScore % MULTIPLIER
            | none => timestampSeconds
          let score := newAmount * MULTIPLIER + (MAX_TS - betTimestamp)
          let st : Stored := ⟨1, newAmount, oldBet, diff, .OK⟩
          let s1 : FS :=
            { userBets := upd2 s.userBets userId auctionId (some newAmount)
              zscore := upd2 s.zscore auctionId userId (some score)
              idem := if idemKey ≠ "" then upd s.idem idemKey (some st) else s.idem }
          (⟨1, newAmount, oldBet, diff, .OK, false⟩, s1)

/-- `scoreToAmount` from `src/services/bets.ts`: recover the amount
component of a composite score. -/
def scoreToAmount (score : Nat) : Nat := score / MULTIPLIER

/-- The composite score formula of `lua/makeBet.lua`:
`score = amount * 10^10 + (MAX_TS - timestampSeconds)`. -/
def compositeScore (amount timestampSeconds : Nat) : Nat :=
  amount * MULTIPLIER + (MAX_TS - timestampSeconds)

/-- `lua/deleteBet.lua`: remove a user's bid from the hash and ranked set,
returning the removed amount (0 when there was no bid). -/
def deleteBet (s : FS) (auctionId userId : String) : Nat × FS :=
  let oldBet := (s.userBets userId auctionId).getD 0
  if oldBet = 0 then (0, s)
  else
    (oldBet,
      { s with
        userBets := upd2 s.userBets userId auctionId none
        zscore := upd2 s.zscore auctionId userId none })

/-! ### Ledger (`createBetTransaction` of `src/models/transaction.ts`) -/

/-- Transaction types (`TransactionType`). -/
inductive TxnType
  | bet
  | bet_increase
  | refund
  | win
deriving DecidableEq, Repr

/-- Transaction statuses (`TransactionStatus`). -/
inductive TxnStatus
  | active
  | won
  | lost
  | refunded
deriving DecidableEq, Repr

/-- A ledger record (the `Transaction` document; `odCreatedAt` is modelled
as the insertion position in the ledger list, which is append-only). -/
structure Txn where
  odId : String
  odType : TxnType
  odStatus : TxnStatus
  odUserId : String
  odAuctionId : String
  odRoundIndex : Int
  odAmount : Nat
  odPreviousAmount : Nat
  odDiff : Int
deriving DecidableEq, Repr

/-- Mongo `findOneAndUpdate({odId}, {$setOnInsert: ...}, {upsert: true})`
against the unique `odId` index: insert the record only when no record
with that `odId` exists. -/
def insertIfAbsent (l : List Txn) (t : Txn) : List Txn :=
  if l.any (fun x => x.odId = t.odId) then l else l ++ [t]

/-- `createBetTransaction`: upsert a BET / BET_INCREASE record keyed by the
idempotency key (`odType` is `bet_increase` iff `previousAmount > 0`). -/
def createBetTransaction (l : List Txn) (idemKey userId auctionId : String)
    (roundIndex : Int) (amount previousAmount : Nat) (diff : Int) : List Txn :=
  insertIfAbsent l
    { odId := idemKey
      odType := if 0 < previousAmount then .bet_increase else .bet
      odStatus := .active
      odUserId := userId
      odAuctionId := auctionId
      odRoundIndex := roundIndex
      odAmount := amount
      odPreviousAmount := previousAmount
      odDiff := diff }

/-! ### Basic lemmas about map updates and the makeBet branches -/

lemma upd_self {α : Type} (f : String → α) (k : String) (v : α) : upd f k v k = v := by
  simp [upd]

lemma upd_other {α : Type} (f : String → α) (k x : String) (v : α) (h : x ≠ k) :
    upd f k v x = f x := by
  simp [upd, h]

lemma upd2_self (f : String → String → Option Nat) (k1 k2 : String) (v : Option Nat) :
    upd2 f k1 k2 v k1 k2 = v := by
  simp [upd2, upd]

lemma upd2_other (f : String → String → Option Nat) (k1 k2 x1 x2 : String)
    (v : Option Nat) (h : ¬(x1 = k1 ∧ x2 = k2)) :
    upd2 f k1 k2 v x1 x2 = f x1 x2 := by
  by_cases h1 : x1 = k1
  · have h2 : x2 ≠ k2 := fun hc => h ⟨h1, hc⟩
    simp [upd2, upd, h1, h2]
  · simp [upd2, h1]

/-- Replay semantics: when the idempotency slot is populated, the script
returns the stored record with the IDEMPOTENT flag and performs no write. -/
lemma makeBet_replay (s : FS) (a u : String) (n : Nat) (b : Int) (t : Nat)
    (key : String) (st : Stored) (hk : key ≠ "") (hst : s.idem key = some st) :
    makeBet s a u n b t key =
      (⟨st.code, st.amount, st.previousBet, st.diff, st.status, true⟩, s) := by
  simp [makeBet, hk, hst]

/-- Replay lemma phrased on the scrutinee of the script's first branch. -/
lemma makeBet_replay2 (s : FS) (a u : String) (n : Nat) (b : Int) (t : Nat)
    (key : String) (st : Stored)
    (hrep : (if key ≠ "" then s.idem key else none) = some st) :
    makeBet s a u n b t key =
      (⟨st.code, st.amount, st.previousBet, st.diff, st.status, true⟩, s) := by
  simp [makeBet, hrep]

/-- SAME branch: the current bid already equals the request. -/
lemma makeBet_same (s : FS) (a u : String) (n : Nat) (b : Int) (t : Nat)
    (key : String)
    (hrep : (if key ≠ "" then s.idem key else none) = none)
    (h1 : (s.userBets u a).getD 0 = n) :
    makeBet s a u n b t key =
      (⟨0, n, n, 0, .SAME, false⟩,
       if key ≠ "" then { s with idem := upd s.idem key (some ⟨0, n, n, 0, .SAME⟩) }
       else s) := by
  simp [makeBet, hrep, h1]

/-- CANNOT_DECREASE branch: the request is below the current bid. -/
lemma makeBet_cd (s : FS) (a u : String) (n : Nat) (b : Int) (t : Nat)
    (key : String)
    (hrep : (if key ≠ "" then s.idem key else none) = none)
    (h2 : n < (s.userBets u a).getD 0) :
    makeBet s a u n b t key =
      (⟨-2, (s.userBets u a).getD 0, (s.userBets u a).getD 0, 0, .CANNOT_DECREASE, false⟩,
       s) := by
  have h1 : ¬(s.userBets u a).getD 0 = n := by omega
  simp [makeBet, hrep, h1, h2]

/-- INSUFFICIENT_BALANCE branch. -/
lemma makeBet_ib (s : FS) (a u : String) (n : Nat) (b : Int) (t : Nat)
    (key : String)
    (hrep : (if key ≠ "" then s.idem key else none) = none)
    (h1 : ¬(s.userBets u a).getD 0 = n)
    (h2 : ¬ n < (s.userBets u a).getD 0)
    (h3 : b + ((s.userBets u a).getD 0 : Int) < (n : Int)) :
    makeBet s a u n b t key =
      (⟨-1, 0, (s.userBets u a).getD 0, n - (s.userBets u a).getD 0,
        .INSUFFICIENT_BALANCE, false⟩, s) := by
  simp [makeBet, hrep, h1, h2, h3]

/-- OK branch: the bid is admitted and all three keys are written. -/
lemma makeBet_ok (s : FS) (a u : String) (n : Nat) (b : Int) (t : Nat)
    (key : String)
    (hrep : (if key ≠ "" then s.idem key else none) = none)
    (h1 : ¬(s.userBets u a).getD 0 = n)
    (h2 : ¬ n < (s.userBets u a).getD 0)
    (h3 : ¬ b + ((s.userBets u a).getD 0 : Int) < (n : Int)) :
    makeBet s a u n b t key =
      (⟨1, n, (s.userBets u a).getD 0, n - (s.userBets u a).getD 0, .OK, false⟩,
       { userBets := upd2 s.userBets u a (some n)
         zscore := upd2 s.zscore a u (some (n * MULTIPLIER +
           (MAX_TS - (match s.zscore a u with
                      | some oldScore => MAX_TS - oldScore % MULTIPLIER
                      | none => t / 1000))))
         idem := if key ≠ "" then
             upd s.idem key (some ⟨1, n, (s.userBets u a).getD 0,
               n - (s.userBets u a).getD 0, .OK⟩)
           else s.idem }) := by
  simp [makeBet, hrep, h1, h2, h3]

/-- After an execution whose outcome is OK or SAME (with a nonempty key),
the idempotency slot holds exactly that outcome's record. -/
lemma makeBet_stores_outcome (s : FS) (a u : String) (n : Nat) (b : Int) (t : Nat)
    (key : String) (hk : key ≠ "")
    (h : (makeBet s a u n b t key).1.status = BetStatus.OK ∨
         (makeBet s a u n b t key).1.status = BetStatus.SAME) :
    (makeBet s a u n b t key).2.idem key =
      some ⟨(makeBet s a u n b t key).1.code, (makeBet s a u n b t key).1.amount,
            (makeBet s a u n b t key).1.previousBet, (makeBet s a u n b t key).1.diff,
            (makeBet s a u n b t key).1.status⟩ := by
  cases hst : s.idem key with
  | some st =>
      rw [makeBet_replay s a u n b t key st hk hst]
      exact hst
  | none =>
      by_cases h1 : (s.userBets u a).getD 0 = n
      · simp [makeBet, hk, hst, h1, upd_self]
      · by_cases h2 : n < (s.userBets u a).getD 0
        · simp [makeBet, hk, hst, h1, h2] at h
        · by_cases h3 : b + ((s.userBets u a).getD 0 : Int) < (n : Int)
          · simp [makeBet, hk, hst, h1, h2, h3] at h
          · simp [makeBet, hk, hst, h1, h2, h3, upd_self]

/-- A second upsert whose record carries the same `odId` inserts nothing. -/
lemma insertIfAbsent_idem (l : List Txn) (t t2 : Txn) (h : t2.odId = t.odId) :
    insertIfAbsent (insertIfAbsent l t) t2 = insertIfAbsent l t := by
  simp only [insertIfAbsent]
  by_cases hmem : l.any (fun x => x.odId = t.odId)
  · simp only [h, hmem, if_true]
  · simp only [h, hmem, if_false, Bool.false_eq_true]
    simp [List.any_append]

/-- The ledger upsert keyed by an idempotency key is idempotent: a second
upsert with the same key inserts nothing. -/
lemma createBetTransaction_idem (l : List Txn) (key u a : String) (ri : Int)
    (am pa : Nat) (d : Int) :
    createBetTransaction (createBetTransaction l key u a ri am pa d) key u a ri am pa d =
      createBetTransaction l key u a ri am pa d := by
  exact insertIfAbsent_idem l _ _ rfl

/-- The script never touches ranked-set members other than `(auctionId, userId)`. -/
lemma makeBet_zscore_frame (s : FS) (a u : String) (n : Nat) (b : Int) (t : Nat)
    (key : String) (a2 u2 : String) (h : ¬(a2 = a ∧ u2 = u)) :
    (makeBet s a u n b t key).2.zscore a2 u2 = s.zscore a2 u2 := by
  cases hrep : (if key ≠ "" then s.idem key else none) with
  | some st => rw [makeBet_replay2 s a u n b t key st hrep]
  | none =>
      by_cases h1 : (s.userBets u a).getD 0 = n
      · rw [makeBet_same s a u n b t key hrep h1]
        split <;> rfl
      · by_cases h2 : n < (s.userBets u a).getD 0
        · rw [makeBet_cd s a u n b t key hrep h2]
        · by_cases h3 : b + ((s.userBets u a).getD 0 : Int) < (n : Int)
          · rw [makeBet_ib s a u n b t key hrep h1 h2 h3]
          · rw [makeBet_ok s a u n b t key hrep h1 h2 h3]
            exact upd2_other _ _ _ _ _ _ h

/-- The script never touches bid-map entries other than `(userId, auctionId)`. -/
lemma makeBet_userBets_frame (s : FS) (a u : String) (n : Nat) (b : Int) (t : Nat)
    (key : String) (u2 a2 : String) (h : ¬(u2 = u ∧ a2 = a)) :
    (makeBet s a u n b t key).2.userBets u2 a2 = s.userBets u2 a2 := by
  cases hrep : (if key ≠ "" then s.idem key else none) with
  | some st => rw [makeBet_replay2 s a u n b t key st hrep]
  | none =>
      by_cases h1 : (s.userBets u a).getD 0 = n
      · rw [makeBet_same s a u n b t key hrep h1]
        split <;> rfl
      · by_cases h2 : n < (s.userBets u a).getD 0
        · rw [makeBet_cd s a u n b t key hrep h2]
        · by_cases h3 : b + ((s.userBets u a).getD 0 : Int) < (n : Int)
          · rw [makeBet_ib s a u n b t key hrep h1 h2 h3]
          · rw [makeBet_ok s a u n b t key hrep h1 h2 h3]
            exact upd2_other _ _ _ _ _ _ h

/-- The script never touches idempotency slots other than its own key. -/
lemma makeBet_idem_frame (s : FS) (a u : String) (n : Nat) (b : Int) (t : Nat)
    (key : String) (k2 : String) (h : k2 ≠ key) :
    (makeBet s a u n b t key).2.idem k2 = s.idem k2 := by
  cases hrep : (if key ≠ "" then s.idem key else none) with
  | some st => rw [makeBet_replay2 s a u n b t key st hrep]
  | none =>
      by_cases h1 : (s.userBets u a).getD 0 = n
      · rw [makeBet_same s a u n b t key hrep h1]
        split
        · exact upd_other _ _ _ _ h
        · rfl
      · by_cases h2 : n < (s.userBets u a).getD 0
        · rw [makeBet_cd s a u n b t key hrep h2]
        · by_cases h3 : b + ((s.userBets u a).getD 0 : Int) < (n : Int)
          · rw [makeBet_ib s a u n b t key hrep h1 h2 h3]
          · rw [makeBet_ok s a u n b t key hrep h1 h2 h3]
            simp only
            split
            · exact upd_other _ _ _ _ h
            · rfl

/-! ### Claim theorems for the bid-admission script -/

/-- C1: once a `placeBid` execution has returned OK or SAME under a nonempty
idempotency key, every later `makeBet` call repeating the same request under
that key returns the stored `(code, amount, previousBet, diff, status)`
outcome with the `idempotent` flag set, and changes none of the three Redis
keys (the returned state is the same state); moreover the ledger upsert
keyed by that idempotency key, repeated after its first execution, inserts
nothing new. -/
theorem placeBid_replay_returns_cached_and_writes_nothing
    (s0 : FS) (a u : String) (n : Nat) (b1 : Int) (t1 : Nat) (key : String)
    (hk : key ≠ "")
    (h : (makeBet s0 a u n b1 t1 key).1.status = BetStatus.OK ∨
         (makeBet s0 a u n b1 t1 key).1.status = BetStatus.SAME) :
    (∀ (b2 : Int) (t2 : Nat),
        makeBet (makeBet s0 a u n b1 t1 key).2 a u n b2 t2 key =
          (⟨(makeBet s0 a u n b1 t1 key).1.code,
            (makeBet s0 a u n b1 t1 key).1.amount,
            (makeBet s0 a u n b1 t1 key).1.previousBet,
            (makeBet s0 a u n b1 t1 key).1.diff,
            (makeBet s0 a u n b1 t1 key).1.status, true⟩,
           (makeBet s0 a u n b1 t1 key).2)) ∧
    (∀ (l : List Txn) (ri : Int) (am pa : Nat) (d : Int),
        createBetTransaction (createBetTransaction l key u a ri am pa d)
            key u a ri am pa d =
          createBetTransaction l key u a ri am pa d) := by
  refine ⟨fun b2 t2 => ?_, fun l ri am pa d => createBetTransaction_idem l key u a ri am pa d⟩
  exact makeBet_replay _ a u n b2 t2 key _ hk (makeBet_stores_outcome s0 a u n b1 t1 key hk h)

/-- The empty Redis state. -/
def emptyFS : FS := ⟨fun _ _ => none, fun _ _ => none, fun _ => none⟩

theorem placeBid_replay_returns_cached_and_writes_nothing_witness :
    (("key-12345" : String) ≠ "" ∧
      ((makeBet emptyFS "auc1" "alice" 100 500 1700000000000 "key-12345").1.status =
          BetStatus.OK ∨
       (makeBet emptyFS "auc1" "alice" 100 500 1700000000000 "key-12345").1.status =
          BetStatus.SAME)) ∧
    makeBet (makeBet emptyFS "auc1" "alice" 100 500 1700000000000 "key-12345").2
        "auc1" "alice" 100 400 1700000000999 "key-12345" =
      (⟨(makeBet emptyFS "auc1" "alice" 100 500 1700000000000 "key-12345").1.code,
        (makeBet emptyFS "auc1" "alice" 100 500 1700000000000 "key-12345").1.amount,
        (makeBet emptyFS "auc1" "alice" 100 500 1700000000000 "key-12345").1.previousBet,
        (makeBet emptyFS "auc1" "alice" 100 500 1700000000000 "key-12345").1.diff,
        (makeBet emptyFS "auc1" "alice" 100 500 1700000000000 "key-12345").1.status, true⟩,
       (makeBet emptyFS "auc1" "alice" 100 500 1700000000000 "key-12345").2) :=
  ⟨⟨by decide, by decide⟩,
   (placeBid_replay_returns_cached_and_writes_nothing emptyFS "auc1" "alice" 100 500
      1700000000000 "key-12345" (by decide) (by decide)).1 400 1700000000999⟩

/-- C2: when the script's outcome is CANNOT_DECREASE or INSUFFICIENT_BALANCE,
none of the three keys is modified (the post-state is the input state), and
any execution that does modify an idempotency slot has outcome OK or SAME. -/
theorem makeBet_validation_errors_write_nothing
    (s : FS) (a u : String) (n : Nat) (b : Int) (t : Nat) (key : String) :
    (((makeBet s a u n b t key).1.status = BetStatus.CANNOT_DECREASE ∨
      (makeBet s a u n b t key).1.status = BetStatus.INSUFFICIENT_BALANCE) →
        (makeBet s a u n b t key).2 = s) ∧
    (∀ k2 : String, (makeBet s a u n b t key).2.idem k2 ≠ s.idem k2 →
      (makeBet s a u n b t key).1.status = BetStatus.OK ∨
      (makeBet s a u n b t key).1.status = BetStatus.SAME) := by
  cases hrep : (if key ≠ "" then s.idem key else none) with
  | some st =>
      rw [makeBet_replay2 s a u n b t key st hrep]
      exact ⟨fun _ => rfl, fun k2 hne => absurd rfl hne⟩
  | none =>
      by_cases h1 : (s.userBets u a).getD 0 = n
      · rw [makeBet_same s a u n b t key hrep h1]
        exact ⟨fun hc => by simp at hc, fun k2 _ => Or.inr rfl⟩
      · by_cases h2 : n < (s.userBets u a).getD 0
        · rw [makeBet_cd s a u n b t key hrep h2]
          exact ⟨fun _ => rfl, fun k2 hne => absurd rfl hne⟩
        · by_cases h3 : b + ((s.userBets u a).getD 0 : Int) < (n : Int)
          · rw [makeBet_ib s a u n b t key hrep h1 h2 h3]
            exact ⟨fun _ => rfl, fun k2 hne => absurd rfl hne⟩
          · rw [makeBet_ok s a u n b t key hrep h1 h2 h3]
            exact ⟨fun hc => by simp at hc, fun k2 _ => Or.inl rfl⟩

/-- A state in which user `bob` holds a bid of 100 on auction `auc1`. -/
def fsBob : FS :=
  { userBets := fun u2 a2 => if u2 = "bob" then (if a2 = "auc1" then some 100 else none) else none
    zscore := fun a2 u2 => if a2 = "auc1" then (if u2 = "bob" then some (100 * MULTIPLIER + 123) else none) else none
    idem := fun _ => none }

theorem makeBet_validation_errors_write_nothing_witness :
    ((makeBet fsBob "auc1" "bob" 50 500 1000 "kk-123456").1.status =
        BetStatus.CANNOT_DECREASE ∨
     (makeBet fsBob "auc1" "bob" 50 500 1000 "kk-123456").1.status =
        BetStatus.INSUFFICIENT_BALANCE) ∧
    (makeBet fsBob "auc1" "bob" 50 500 1000 "kk-123456").2 = fsBob :=
  ⟨by decide,
   (makeBet_validation_errors_write_nothing fsBob "auc1" "bob" 50 500 1000 "kk-123456").1
     (by decide)⟩

/-- C8: the idempotency replay is keyed solely by the caller-supplied key:
whenever the slot for `key` is populated, a `makeBet` call presenting `key`
returns the stored outcome verbatim for every choice of `userId`,
`auctionId`, `amount`, balance and timestamp, without any validation of
those parameters, and performs no writes. -/
theorem makeBet_replay_ignores_request_params
    (s : FS) (key : String) (st : Stored) (hk : key ≠ "")
    (hst : s.idem key = some st) :
    ∀ (a u : String) (n : Nat) (b : Int) (t : Nat),
      makeBet s a u n b t key =
        (⟨st.code, st.amount, st.previousBet, st.diff, st.status, true⟩, s) :=
  fun a u n b t => makeBet_replay s a u n b t key st hk hst

/-- A state whose idempotency slot `k1-abcdef` stores an OK outcome. -/
def fsIdem : FS :=
  { userBets := fun _ _ => none
    zscore := fun _ _ => none
    idem := fun k => if k = "k1-abcdef" then some ⟨1, 50, 0, 50, .OK⟩ else none }

theorem makeBet_replay_ignores_request_params_witness :
    (("k1-abcdef" : String) ≠ "" ∧
      fsIdem.idem "k1-abcdef" = some ⟨1, 50, 0, 50, BetStatus.OK⟩) ∧
    makeBet fsIdem "other-auction" "mallory" 999 0 5 "k1-abcdef" =
      (⟨1, 50, 0, 50, BetStatus.OK, true⟩, fsIdem) :=
  ⟨⟨by decide, by decide⟩,
   makeBet_replay_ignores_request_params fsIdem "k1-abcdef" ⟨1, 50, 0, 50, .OK⟩
     (by decide) (by decide) "other-auction" "mallory" 999 0 5⟩

/-- C9: `deleteBet` is a guarded frame operation: with no bid-map entry it
returns 0 and leaves the whole state (ranked set included) unchanged; with
an entry `amt > 0` it returns `amt`, removes exactly that hash field and
that user's ranked-set member, and touches no other entry. -/
theorem deleteBet_guarded_frame (s : FS) (a u : String) :
    (s.userBets u a = none → deleteBet s a u = (0, s)) ∧
    (∀ amt : Nat, s.userBets u a = some amt → 0 < amt →
      (deleteBet s a u).1 = amt ∧
      (deleteBet s a u).2.userBets u a = none ∧
      (deleteBet s a u).2.zscore a u = none ∧
      (∀ u2 a2, ¬(u2 = u ∧ a2 = a) →
        (deleteBet s a u).2.userBets u2 a2 = s.userBets u2 a2) ∧
      (∀ a2 u2, ¬(a2 = a ∧ u2 = u) →
        (deleteBet s a u).2.zscore a2 u2 = s.zscore a2 u2) ∧
      (deleteBet s a u).2.idem = s.idem) := by
  constructor
  · intro h
    simp [deleteBet, h]
  · intro amt hsome hpos
    have hne : ¬ (s.userBets u a).getD 0 = 0 := by simp [hsome]; omega
    refine ⟨?_, ?_, ?_, ?_, ?_, ?_⟩
    · have : ¬ amt = 0 := by omega
      simp [deleteBet, hne, hsome, this]
    · simp only [deleteBet, hne, if_false]
      exact upd2_self _ _ _ _
    · simp only [deleteBet, hne, if_false]
      exact upd2_self _ _ _ _
    · intro u2 a2 h
      simp only [deleteBet, hne, if_false]
      exact upd2_other _ _ _ _ _ _ h
    · intro a2 u2 h
      simp only [deleteBet, hne, if_false]
      exact upd2_other _ _ _ _ _ _ h
    · simp only [deleteBet, hne, if_false]

theorem deleteBet_guarded_frame_witness :
    (fsBob.userBets "bob" "auc1" = some 100 ∧ 0 < 100 ∧
      fsBob.userBets "carol" "auc1" = none) ∧
    (deleteBet fsBob "auc1" "bob").1 = 100 ∧
    deleteBet fsBob "auc1" "carol" = (0, fsBob) :=
  ⟨⟨by decide, by decide, by decide⟩,
   ((deleteBet_guarded_frame fsBob "auc1" "bob").2 100 (by decide) (by decide)).1,
   (deleteBet_guarded_frame fsBob "auc1" "carol").1 (by decide)⟩

/-- C3: the composite score `amount·10¹⁰ + (MAX_TS − ts)` round-trips —
`⌊score / 10¹⁰⌋` recovers the amount and `MAX_TS − (score mod 10¹⁰)`
recovers the first-bid second — and a bid increase (an OK admission over
an existing ranked-set score) writes a score whose amount component is the
new amount while its timestamp component equals the old score's, so the
recovered first-bid timestamp is unchanged. -/
theorem compositeScore_roundtrip_and_increase_preserves_ts :
    (∀ amount ts : Nat, 0 < amount → ts ≤ MAX_TS →
        scoreToAmount (compositeScore amount ts) = amount ∧
        MAX_TS - compositeScore amount ts % MULTIPLIER = ts) ∧
    (∀ (s : FS) (a u : String) (n : Nat) (b : Int) (t : Nat) (key : String)
        (oldScore : Nat),
        s.zscore a u = some oldScore →
        (makeBet s a u n b t key).1.idempotent = false →
        (makeBet s a u n b t key).1.status = BetStatus.OK →
        ∃ sc : Nat, (makeBet s a u n b t key).2.zscore a u = some sc ∧
          scoreToAmount sc = n ∧
          sc % MULTIPLIER = oldScore % MULTIPLIER) := by
  constructor
  · intro amount ts _ hts
    unfold scoreToAmount compositeScore MAX_TS MULTIPLIER at *
    omega
  · intro s a u n b t key oldScore hzs hflag hok
    cases hrep : (if key ≠ "" then s.idem key else none) with
    | some st =>
        rw [makeBet_replay2 s a u n b t key st hrep] at hflag
        simp at hflag
    | none =>
        by_cases h1 : (s.userBets u a).getD 0 = n
        · rw [makeBet_same s a u n b t key hrep h1] at hok
          simp at hok
        · by_cases h2 : n < (s.userBets u a).getD 0
          · rw [makeBet_cd s a u n b t key hrep h2] at hok
            simp at hok
          · by_cases h3 : b + ((s.userBets u a).getD 0 : Int) < (n : Int)
            · rw [makeBet_ib s a u n b t key hrep h1 h2 h3] at hok
              simp at hok
            · rw [makeBet_ok s a u n b t key hrep h1 h2 h3]
              have hmod : oldScore % MULTIPLIER < MULTIPLIER :=
                Nat.mod_lt _ (by unfold MULTIPLIER; omega)
              have hcomp : MAX_TS - (MAX_TS - oldScore % MULTIPLIER) =
                  oldScore % MULTIPLIER := by
                unfold MAX_TS MULTIPLIER at *
                omega
              refine ⟨n * MULTIPLIER + oldScore % MULTIPLIER, ?_, ?_, ?_⟩
              · simp only [hzs, hcomp]
                exact upd2_self _ _ _ _
              · unfold scoreToAmount MULTIPLIER at *
                omega
              · unfold MULTIPLIER at *
                omega

theorem compositeScore_roundtrip_and_increase_preserves_ts_witness :
    ((0 : Nat) < 250 ∧ (1700000000 : Nat) ≤ MAX_TS) ∧
    scoreToAmount (compositeScore 250 1700000000) = 250 ∧
    MAX_TS - compositeScore 250 1700000000 % MULTIPLIER = 1700000000 :=
  ⟨⟨by decide, by decide⟩,
   compositeScore_roundtrip_and_increase_preserves_ts.1 250 1700000000
     (by decide) (by decide)⟩

/-- C4 counterexample: two distinct users admitted with the same amount
whose first bids land in the same second receive identical composite
scores, so neither ranks strictly higher than the other — the claim that
the earlier-admitted bidder ranks strictly higher even within one second
is false. -/
theorem equal_amount_same_second_tie_counterexample :
    (makeBet (makeBet emptyFS "auc1" "uA" 5 100 1500 "ka-123456").2
        "auc1" "uB" 5 100 1800 "kb-123456").2.zscore "auc1" "uA" =
      (makeBet (makeBet emptyFS "auc1" "uA" 5 100 1500 "ka-123456").2
        "auc1" "uB" 5 100 1800 "kb-123456").2.zscore "auc1" "uB" ∧
    (makeBet emptyFS "auc1" "uA" 5 100 1500 "ka-123456").1.status = BetStatus.OK ∧
    (makeBet (makeBet emptyFS "auc1" "uA" 5 100 1500 "ka-123456").2
        "auc1" "uB" 5 100 1800 "kb-123456").1.status = BetStatus.OK := by
  decide

/-- C4 (amended): for two distinct users admitted into the same auction's
ranked set with equal amounts, if the earlier first bid falls in an
earlier *second* than the later one, the earlier bidder's stored composite
score is strictly greater, so they rank strictly higher; within the same
second the scores tie (see the counterexample) and the ranked set falls
back to member lexicographic order. -/
theorem equal_amount_earlier_second_ranks_strictly_higher
    (s0 : FS) (a uA uB : String) (n : Nat) (bA bB : Int) (tA tB : Nat)
    (kA kB : String)
    (hAB : uA ≠ uB)
    (hfreshA : s0.userBets uA a = none) (hzA : s0.zscore a uA = none)
    (hfreshB : s0.userBets uB a = none) (hzB : s0.zscore a uB = none)
    (hn : 0 < n)
    (hbA : (n : Int) ≤ bA) (hbB : (n : Int) ≤ bB)
    (hkA : s0.idem kA = none) (hkB : s0.idem kB = none) (hkk : kB ≠ kA)
    (hts : tA / 1000 < tB / 1000) (htB : tB / 1000 ≤ MAX_TS) :
    ∃ scA scB : Nat,
      (makeBet (makeBet s0 a uA n bA tA kA).2 a uB n bB tB kB).2.zscore a uA =
        some scA ∧
      (makeBet (makeBet s0 a uA n bA tA kA).2 a uB n bB tB kB).2.zscore a uB =
        some scB ∧
      scB < scA := by
  set s1 := (makeBet s0 a uA n bA tA kA).2 with hs1
  have hrep1 : (if kA ≠ "" then s0.idem kA else none) = none := by
    by_cases h : kA = "" <;> simp [h, hkA]
  have h1A : ¬(s0.userBets uA a).getD 0 = n := by
    simp only [hfreshA, Option.getD_none]
    omega
  have h2A : ¬ n < (s0.userBets uA a).getD 0 := by
    simp [hfreshA]
  have h3A : ¬ bA + ((s0.userBets uA a).getD 0 : Int) < (n : Int) := by
    simp only [hfreshA, Option.getD_none]
    omega
  have hmk1 := makeBet_ok s0 a uA n bA tA kA hrep1 h1A h2A h3A
  have hzA1 : s1.zscore a uA = some (n * MULTIPLIER + (MAX_TS - tA / 1000)) := by
    rw [hs1, hmk1]
    simp only [hzA]
    exact upd2_self _ _ _ _
  have hfB1 : s1.userBets uB a = none := by
    rw [hs1, makeBet_userBets_frame s0 a uA n bA tA kA uB a (fun hc => hAB hc.1.symm)]
    exact hfreshB
  have hzB1 : s1.zscore a uB = none := by
    rw [hs1, makeBet_zscore_frame s0 a uA n bA tA kA a uB (fun hc => hAB hc.2.symm)]
    exact hzB
  have hkB1 : s1.idem kB = none := by
    rw [hs1, makeBet_idem_frame s0 a uA n bA tA kA kB hkk]
    exact hkB
  have hrep2 : (if kB ≠ "" then s1.idem kB else none) = none := by
    by_cases h : kB = "" <;> simp [h, hkB1]
  have h1B : ¬(s1.userBets uB a).getD 0 = n := by
    simp only [hfB1, Option.getD_none]
    omega
  have h2B : ¬ n < (s1.userBets uB a).getD 0 := by
    simp [hfB1]
  have h3B : ¬ bB + ((s1.userBets uB a).getD 0 : Int) < (n : Int) := by
    simp only [hfB1, Option.getD_none]
    omega
  have hmk2 := makeBet_ok s1 a uB n bB tB kB hrep2 h1B h2B h3B
  refine ⟨n * MULTIPLIER + (MAX_TS - tA / 1000),
          n * MULTIPLIER + (MAX_TS - tB / 1000), ?_, ?_, ?_⟩
  · rw [hmk2]
    exact (upd2_other s1.zscore a uB a uA _ (fun hc => hAB hc.2)).trans hzA1
  · rw [hmk2]
    simp only [hzB1]
    exact upd2_self _ _ _ _
  · have h9 : tA / 1000 < tB / 1000 := hts
    unfold MAX_TS at htB ⊢
    omega

theorem equal_amount_earlier_second_ranks_strictly_higher_witness :
    (("uA" : String) ≠ "uB" ∧ (0 : Nat) < 5 ∧ (1500 : Nat) / 1000 < 2500 / 1000 ∧
      (2500 : Nat) / 1000 ≤ MAX_TS) ∧
    ∃ scA scB : Nat,
      (makeBet (makeBet emptyFS "auc1" "uA" 5 100 1500 "ka-123456").2
          "auc1" "uB" 5 100 2500 "kb-123456").2.zscore "auc1" "uA" = some scA ∧
      (makeBet (makeBet emptyFS "auc1" "uA" 5 100 1500 "ka-123456").2
          "auc1" "uB" 5 100 2500 "kb-123456").2.zscore "auc1" "uB" = some scB ∧
      scB < scA :=
  ⟨⟨by decide, by decide, by decide, by decide⟩,
   equal_amount_earlier_second_ranks_strictly_higher emptyFS "auc1" "uA" "uB" 5 100 100
     1500 2500 "ka-123456" "kb-123456" (by decide) rfl rfl rfl rfl (by decide)
     (by decide) (by decide) rfl rfl (by decide) (by decide) (by decide)⟩

/-! ### Round settlement (`src/services/rounds.ts`, idempotent revision)

The settlement state couples the Mongo documents (transaction ledger, user
balances and gifts, the auction document under settlement) with the Redis
bid structures for that auction.  The ranked set is kept as an association
list `(member, score)` so that range queries (`getTopBets`) can be
expressed; `userBetMap u` is the `auctionId` field of `user:{u}:bets` for
this auction.  `giftLog` is a ghost event trace: `addGifts` appends every
`(userId, count)` credit it performs, changing no other behaviour. -/

inductive AuctionState
  | pending
  | active
  | finished
  | cancelled
deriving DecidableEq, Repr

/-- A winner record on the auction document (`AuctionWinner`). -/
structure AuctionWinner where
  roundIndex : Int
  place : Nat
  userId : String
  stars : Nat
  prize : Nat
deriving DecidableEq, Repr

/-- A round description (`AuctionRound`): duration seconds and prize vector. -/
structure AuctionRound where
  duration : Nat
  prizes : List Nat
deriving DecidableEq, Repr

/-- The auction document fields settlement reads and writes. -/
structure AuctionDoc where
  id : String
  authorId : String
  giftName : String
  state : AuctionState
  currentRound : Int
  roundEndTime : Option Nat
  winners : List AuctionWinner
  rounds : List AuctionRound
deriving DecidableEq, Repr

/-- The combined store state seen by `processRoundEnd`. -/
structure Sys where
  txns : List Txn
  balance : String → Nat
  gifts : String → String → Nat
  giftLog : List (String × Nat)
  userBetMap : String → Option Nat
  zbets : List (String × Nat)
  auction : AuctionDoc

/-- `addGifts`: credit `count` gifts named `giftName` to `userId`
(atomic upsert-increment in Mongo), recording the credit on the trace. -/
def addGifts (s : Sys) (userId giftName : String) (count : Nat) : Sys :=
  { s with
    gifts := fun u2 =>
      if u2 = userId then
        (fun g => if g = giftName then s.gifts u2 g + count else s.gifts u2 g)
      else s.gifts u2
    giftLog := s.giftLog ++ [(userId, count)] }

/-- `deductBalance`: `updateOne({id, balance ≥ amount}, {$inc: -amount})` —
the decrement applies only when the guard matches. -/
def deductBalance (s : Sys) (userId : String) (amount : Nat) : Sys :=
  { s with
    balance :=
      if amount ≤ s.balance userId then
        upd s.balance userId (s.balance userId - amount)
      else s.balance }

/-- `isWinnerAlreadyProcessed`: does a WIN transaction for this
`(userId, auctionId, roundIndex)` exist? -/
def isWinnerAlreadyProcessed (l : List Txn) (userId auctionId : String)
    (r : Nat) : Bool :=
  l.any fun t =>
    t.odUserId = userId ∧ t.odAuctionId = auctionId ∧
    t.odRoundIndex = (r : Int) ∧ t.odType = TxnType.win

/-- Deterministic op-id of a WIN transaction:
`{auctionId}:{userId}:win:{r}:place{p}`. -/
def winOdId (auctionId userId : String) (r place : Nat) : String :=
  auctionId ++ ":" ++ userId ++ ":win:" ++ toString r ++ ":place" ++ toString place

/-- Deterministic op-id of the unclaimed-prizes refund:
`{auctionId}:{authorId}:unclaimed:{r}`. -/
def unclaimedOdId (auctionId authorId : String) (r : Nat) : String :=
  auctionId ++ ":" ++ authorId ++ ":unclaimed:" ++ toString r

/-- `createWinTransaction`: idempotent upsert of the WIN record. -/
def createWinTransaction (l : List Txn) (userId auctionId : String)
    (r place betAmount prizeCount : Nat) : List Txn :=
  insertIfAbsent l
    { odId := winOdId auctionId userId r place
      odType := .win
      odStatus := .won
      odUserId := userId
      odAuctionId := auctionId
      odRoundIndex := (r : Int)
      odAmount := betAmount
      odPreviousAmount := 0
      odDiff := (prizeCount : Int) }

/-- `updateUserAuctionTransactionsStatus`: move the user's ACTIVE records
for this auction to `newStatus`. -/
def updateUserAuctionTransactionsStatus (l : List Txn) (userId auctionId : String)
    (newStatus : TxnStatus) : List Txn :=
  l.map fun t =>
    if t.odUserId = userId ∧ t.odAuctionId = auctionId ∧ t.odStatus = TxnStatus.active
    then { t with odStatus := newStatus }
    else t

/-- `lua/deleteBet.lua` over the settlement state (list-backed ranked set). -/
def deleteBetL (s : Sys) (userId : String) : Sys :=
  { s with
    userBetMap :=
      if (s.userBetMap userId).getD 0 = 0 then s.userBetMap
      else upd s.userBetMap userId none
    zbets :=
      if (s.userBetMap userId).getD 0 = 0 then s.zbets
      else s.zbets.filter fun p => ¬ p.1 = userId }

/-- `ZRANGE ... REV` ordering: higher score first; equal scores are
returned in reverse lexicographic member order. -/
def zrevOrd (x y : String × Nat) : Prop :=
  y.2 < x.2 ∨ (x.2 = y.2 ∧ y.1 < x.1)

instance : DecidableRel zrevOrd := fun x y => by
  unfold zrevOrd
  infer_instance

/-- `getTopBets`: top-`limit` members with their amounts (scores decoded
through `scoreToAmount`). -/
def getTopBets (z : List (String × Nat)) (limit : Nat) : List (String × Nat) :=
  ((z.insertionSort zrevOrd).take limit).map fun p => (p.1, scoreToAmount p.2)

/-- `getAuctionBets`: all members, ordered, amounts decoded. -/
def getAuctionBets (z : List (String × Nat)) : List (String × Nat) :=
  (z.insertionSort zrevOrd).map fun p => (p.1, scoreToAmount p.2)

/-- `clearAuctionBets`: drop every member's hash entry and delete the set. -/
def clearAuctionBetsL (s : Sys) : Sys :=
  { s with
    userBetMap := fun u =>
      if (getAuctionBets s.zbets).any (fun b => b.1 = u) then none
      else s.userBetMap u
    zbets := [] }

/-- The per-winner settlement body run under the winner's user mutex
(the mutex itself serializes and is not part of the state transform):
skip everything when the WIN record already exists, else create it, debit
the bid (`deductWinnerBalance` delegates to the guarded `deductBalance`),
drop the cached bid, credit the prize, move the bid records to WON. -/
def processWinner (s : Sys) (auctionId giftName : String) (r place : Nat)
    (userId : String) (amount prize : Nat) : Sys :=
  if isWinnerAlreadyProcessed s.txns userId auctionId r then s
  else
    let s1 := { s with txns := createWinTransaction s.txns userId auctionId r place amount prize }
    let s2 := deductBalance s1 userId amount
    let s3 := deleteBetL s2 userId
    let s4 := addGifts s3 userId giftName prize
    { s4 with txns := updateUserAuctionTransactionsStatus s4.txns userId auctionId .won }

/-- The gift/ledger/balance part of `processRoundEnd`'s try-block: refund
the author when there are no bids, otherwise process each winner under
their mutex and refund unclaimed prize slots to the author. -/
def settleGifts (s : Sys) (a : AuctionDoc) (roundIndex : Nat)
    (round : AuctionRound) (topBets : List (String × Nat)) : Sys :=
  if topBets.isEmpty then
    -- no bids: idempotently refund the whole prize vector to the author
    if isWinnerAlreadyProcessed s.txns a.authorId a.id roundIndex then s
    else
      addGifts
        { s with txns := (createWinTransaction s.txns a.authorId a.id
                            roundIndex 0 0 round.prizes.sum) }
        a.authorId a.giftName round.prizes.sum
  else
    let sP := (topBets.enum).foldl
      (fun acc ib =>
        processWinner acc a.id a.giftName roundIndex (ib.1 + 1) ib.2.1 ib.2.2
          (round.prizes.getD ib.1 0)) s
    if topBets.length < round.prizes.length then
      let unclaimedTotal := (round.prizes.drop topBets.length).sum
      if 0 < unclaimedTotal then
        if sP.txns.any (fun t => t.odId = unclaimedOdId a.id a.authorId roundIndex)
        then sP
        else
          addGifts
            { sP with txns := sP.txns ++
                [{ odId := unclaimedOdId a.id a.authorId roundIndex
                   odType := .refund
                   odStatus := .refunded
                   odUserId := a.authorId
                   odAuctionId := a.id
                   odRoundIndex := (roundIndex : Int)
                   odAmount := 0
                   odPreviousAmount := 0
                   odDiff := (unclaimedTotal : Int) }] }
            a.authorId a.giftName unclaimedTotal
      else sP
    else sP

/-- The winner records produced by the round (`newWinners`). -/
def roundWinners (a : AuctionDoc) (roundIndex : Nat) (round : AuctionRound)
    (topBets : List (String × Nat)) : List AuctionWinner :=
  if topBets.isEmpty then
    [⟨(roundIndex : Int), 0, a.authorId, 0, round.prizes.sum⟩]
  else
    (topBets.enum).map fun ib =>
      ⟨(roundIndex : Int), ib.1 + 1, ib.2.1, ib.2.2, round.prizes.getD ib.1 0⟩

/-- The last-round epilogue: move every remaining cached bidder's ACTIVE
records to LOST, then clear the auction's cached bids. -/
def finishAuction (s : Sys) (auctionId : String) : Sys :=
  let losingBets := getAuctionBets s.zbets
  clearAuctionBetsL
    { s with txns := (losingBets.foldl
        (fun acc b => updateUserAuctionTransactionsStatus acc b.1 auctionId .lost)
        s.txns) }

/-- `processRoundEnd` (idempotent settlement).  The Bull job body:
atomically claim the round (conditional update to the `-999` sentinel,
also re-entering a stuck claim), read the top-N, settle winners or refund
the author, guardedly append winner records, advance the auction, and on
the last round mark losers and clear the cached bids.  `now` is the clock
at the final update (used for the next round's end time); scheduling of
the next job is outside the store state. -/
def processRoundEnd (s : Sys) (roundIndex : Nat) (now : Nat) : Sys :=
  let a := s.auction
  if a.state = AuctionState.active ∧
      (a.currentRound = (roundIndex : Int) ∨ a.currentRound = -999) then
    let sL := { s with auction := { s.auction with currentRound := -999 } }
    match a.rounds.get? roundIndex with
    | none =>
        -- round missing: roll the claim back
        { sL with auction := { sL.auction with currentRound := (roundIndex : Int) } }
    | some round =>
        let topBets := getTopBets sL.zbets round.prizes.length
        let sW := settleGifts sL a roundIndex round topBets
        let isLastRound := a.rounds.length - 1 ≤ roundIndex
        let existingWinnersForRound :=
          sW.auction.winners.filter fun w => w.roundIndex = (roundIndex : Int)
        let winnersToAdd :=
          if existingWinnersForRound.isEmpty then roundWinners a roundIndex round topBets
          else []
        let nextRoundEndTime :=
          match (if isLastRound then none else a.rounds.get? (roundIndex + 1)) with
          | some nr => some (now + nr.duration * 1000)
          | none => none
        let sF :=
          { sW with auction :=
              { sW.auction with
                winners := sW.auction.winners ++ winnersToAdd
                currentRound :=
                  if isLastRound then (roundIndex : Int) else (roundIndex : Int) + 1
                state := if isLastRound then AuctionState.finished else AuctionState.active
                roundEndTime := nextRoundEndTime } }
        if isLastRound then finishAuction sF a.id else sF
  else s

/-! ### Settlement lemmas -/

lemma addGifts_auction (s : Sys) (u g : String) (c : Nat) :
    (addGifts s u g c).auction = s.auction := rfl

lemma processWinner_auction (s : Sys) (aId g : String) (r p : Nat) (u : String)
    (amt pz : Nat) : (processWinner s aId g r p u amt pz).auction = s.auction := by
  unfold processWinner
  split <;> rfl

lemma foldl_processWinner_auction (aId g : String) (r : Nat) (prizes : List Nat)
    (l : List (Nat × (String × Nat))) (s : Sys) :
    (l.foldl (fun acc ib => processWinner acc aId g r (ib.1 + 1) ib.2.1 ib.2.2
      (prizes.getD ib.1 0)) s).auction = s.auction := by
  induction l generalizing s with
  | nil => rfl
  | cons x xs ih => rw [List.foldl_cons, ih, processWinner_auction]

lemma settleGifts_auction (s : Sys) (a : AuctionDoc) (r : Nat)
    (round : AuctionRound) (tb : List (String × Nat)) :
    (settleGifts s a r round tb).auction = s.auction := by
  unfold settleGifts
  by_cases hE : tb.isEmpty
  · simp only [hE, if_true]
    split <;> rfl
  · simp only [hE, if_false, Bool.false_eq_true]
    split
    · split
      · split
        · exact foldl_processWinner_auction ..
        · rw [addGifts_auction]
          exact foldl_processWinner_auction ..
      · exact foldl_processWinner_auction ..
    · exact foldl_processWinner_auction ..

lemma finishAuction_auction (s : Sys) (aId : String) :
    (finishAuction s aId).auction = s.auction := rfl

lemma finishAuction_giftLog (s : Sys) (aId : String) :
    (finishAuction s aId).giftLog = s.giftLog := rfl

/-- When the claim guard fails, the job is a duplicate and the state is
returned untouched. -/
lemma processRoundEnd_guard_false (s : Sys) (r now : Nat)
    (h : ¬(s.auction.state = AuctionState.active ∧
      (s.auction.currentRound = (r : Int) ∨ s.auction.currentRound = -999))) :
    processRoundEnd s r now = s := by
  unfold processRoundEnd
  rw [if_neg h]

/-- After a full settlement run, the auction has left the claimable states
for round `r`. -/
lemma processRoundEnd_advances (s : Sys) (r now : Nat) (round : AuctionRound)
    (hguard : s.auction.state = AuctionState.active ∧
      (s.auction.currentRound = (r : Int) ∨ s.auction.currentRound = -999))
    (hround : s.auction.rounds.get? r = some round) :
    (processRoundEnd s r now).auction.state =
      (if s.auction.rounds.length - 1 ≤ r then AuctionState.finished
       else AuctionState.active) ∧
    (processRoundEnd s r now).auction.currentRound =
      (if s.auction.rounds.length - 1 ≤ r then (r : Int) else (r : Int) + 1) := by
  unfold processRoundEnd
  rw [if_pos hguard]
  simp only [hround]
  by_cases hL : s.auction.rounds.length - 1 ≤ r
  · simp only [hL, if_true, finishAuction_auction]
    exact ⟨trivial, trivial⟩
  · simp only [hL, if_false]
    exact ⟨trivial, trivial⟩

/-- The already-processed guard makes the per-winner body a no-op. -/
lemma processWinner_noop (s : Sys) (aId g : String) (r p : Nat) (u : String)
    (amt pz : Nat) (h : isWinnerAlreadyProcessed s.txns u aId r = true) :
    processWinner s aId g r p u amt pz = s := by
  unfold processWinner
  rw [if_pos h]

/-- The guarded winners push: with winner records for round `r` already on
the auction, settlement appends none. -/
lemma processRoundEnd_winners_guarded (s : Sys) (r now : Nat) (round : AuctionRound)
    (hguard : s.auction.state = AuctionState.active ∧
      (s.auction.currentRound = (r : Int) ∨ s.auction.currentRound = -999))
    (hround : s.auction.rounds.get? r = some round)
    (hex : (s.auction.winners.filter fun w => w.roundIndex = (r : Int)).isEmpty = false) :
    (processRoundEnd s r now).auction.winners = s.auction.winners := by
  unfold processRoundEnd
  rw [if_pos hguard]
  simp only [hround, settleGifts_auction]
  by_cases hL : s.auction.rounds.length - 1 ≤ r
  · simp only [hL, if_true, finishAuction_auction]
    simp [hex]
  · simp only [hL, if_false]
    simp [hex]

/-- C6 (amended): the re-run guarantees that actually hold:
(1) rerunning the job after a *completed* run leaves the whole state — the
ledger, every balance, every gift count, the winner records — untouched;
(2) the per-winner body is skipped entirely (no WIN record, no balance
debit) when a WIN transaction for that winner and round already exists;
(3) the winners push appends nothing when the auction already has winner
records for the round.  The blanket claim for *partially completed* runs
is refuted by `settlement_partial_rerun_duplicates_counterexample`: a
retry that re-enters after the winners' cached bids were deleted sees an
empty top-N and fires the no-bids refund branch again. -/
theorem settlement_rerun_no_duplicates :
    (∀ (s : Sys) (r now now2 : Nat) (round : AuctionRound),
        s.auction.state = AuctionState.active →
        (s.auction.currentRound = (r : Int) ∨ s.auction.currentRound = -999) →
        s.auction.rounds.get? r = some round →
        processRoundEnd (processRoundEnd s r now) r now2 = processRoundEnd s r now) ∧
    (∀ (s : Sys) (aId g : String) (r p : Nat) (u : String) (amt pz : Nat),
        isWinnerAlreadyProcessed s.txns u aId r = true →
        processWinner s aId g r p u amt pz = s) ∧
    (∀ (s : Sys) (r now : Nat) (round : AuctionRound),
        s.auction.state = AuctionState.active →
        (s.auction.currentRound = (r : Int) ∨ s.auction.currentRound = -999) →
        s.auction.rounds.get? r = some round →
        (s.auction.winners.filter fun w => w.roundIndex = (r : Int)).isEmpty = false →
        (processRoundEnd s r now).auction.winners = s.auction.winners) := by
  refine ⟨?_, ?_, ?_⟩
  · intro s r now now2 round h1 h2 h3
    apply processRoundEnd_guard_false
    obtain ⟨hst, hcr⟩ := processRoundEnd_advances s r now round ⟨h1, h2⟩ h3
    by_cases hL : s.auction.rounds.length - 1 ≤ r
    · rw [if_pos hL] at hst
      intro hc
      rw [hst] at hc
      exact absurd hc.1 (by simp)
    · rw [if_neg hL] at hcr
      intro hc
      rcases hc with ⟨_, hc2 | hc2⟩ <;> rw [hcr] at hc2 <;> omega
  · exact fun s aId g r p u amt pz h => processWinner_noop s aId g r p u amt pz h
  · exact fun s r now round h1 h2 h3 hex =>
      processRoundEnd_winners_guarded s r now round ⟨h1, h2⟩ h3 hex

/-- A live auction mid round 0: two bidders, a two-slot prize vector. -/
def sysDemo : Sys :=
  { txns := []
    balance := fun _ => 500
    gifts := fun _ _ => 0
    giftLog := []
    userBetMap := fun u => if u = "B1" then some 200 else if u = "B2" then some 150 else none
    zbets := [("B1", 200 * MULTIPLIER + (MAX_TS - 1)), ("B2", 150 * MULTIPLIER + (MAX_TS - 2))]
    auction :=
      { id := "auc1"
        authorId := "A"
        giftName := "Diamond"
        state := .active
        currentRound := 0
        roundEndTime := some 0
        winners := []
        rounds := [⟨3, [3, 2]⟩] } }

/-- `sysDemo` after a crashed run that already recorded B1's WIN. -/
def sysWon : Sys :=
  { sysDemo with txns :=
      [{ odId := winOdId "auc1" "B1" 0 1
         odType := .win
         odStatus := .won
         odUserId := "B1"
         odAuctionId := "auc1"
         odRoundIndex := 0
         odAmount := 200
         odPreviousAmount := 0
         odDiff := 3 }] }

/-- `sysDemo` with round-0 winner records already pushed. -/
def sysWinners : Sys :=
  { sysDemo with auction := { sysDemo.auction with
      currentRound := -999
      winners := [⟨0, 1, "B1", 200, 3⟩] } }

theorem settlement_rerun_no_duplicates_witness :
    ((sysDemo.auction.state = AuctionState.active ∧
        sysDemo.auction.currentRound = (0 : Int) ∧
        sysDemo.auction.rounds.get? 0 = some ⟨3, [3, 2]⟩) ∧
      isWinnerAlreadyProcessed sysWon.txns "B1" "auc1" 0 = true ∧
      (sysWinners.auction.winners.filter fun w => w.roundIndex = (0 : Int)).isEmpty
        = false) ∧
    processRoundEnd (processRoundEnd sysDemo 0 1000) 0 2000 =
      processRoundEnd sysDemo 0 1000 ∧
    processWinner sysWon "auc1" "Diamond" 0 1 "B1" 200 3 = sysWon ∧
    (processRoundEnd sysWinners 0 1000).auction.winners =
      sysWinners.auction.winners :=
  ⟨⟨⟨by decide, by decide, by decide⟩, by decide, by decide⟩,
   settlement_rerun_no_duplicates.1 sysDemo 0 1000 2000 ⟨3, [3, 2]⟩ (by decide)
     (Or.inl (by decide)) (by decide),
   settlement_rerun_no_duplicates.2.1 sysWon "auc1" "Diamond" 0 1 "B1" 200 3 (by decide),
   settlement_rerun_no_duplicates.2.2 sysWinners 0 1000 ⟨3, [3, 2]⟩ (by decide)
     (Or.inr (by decide)) (by decide) (by decide)⟩

/-- The state a settlement run of `sysDemo` leaves behind when it crashes
right after processing both winners — the round claimed (`currentRound =
-999`), the winners' WIN records written, their balances debited and
cached bids deleted — but before the final auction update. -/
def sysPartial : Sys :=
  ((getTopBets sysDemo.zbets 2).enum).foldl
    (fun acc ib => processWinner acc "auc1" "Diamond" 0 (ib.1 + 1) ib.2.1 ib.2.2
      ([3, 2].getD ib.1 0))
    { sysDemo with auction := { sysDemo.auction with currentRound := -999 } }

/-- C6 counterexample: re-running the settlement job after a *partially
completed* first run does create additional records and movement.  In
`sysPartial` both winners' WIN records exist and their cached bids are
gone, and no author WIN record exists; the retry re-enters through the
`currentRound = -999` predicate, reads an empty top-N, and the no-bids
branch — whose `isWinnerAlreadyProcessed` check does not match the
winners' records — inserts a brand-new place-0 WIN record for the author
and credits the author the round's full prize sum a second time. -/
theorem settlement_partial_rerun_duplicates_counterexample :
    (sysPartial.txns.any fun t => t.odId = winOdId "auc1" "B1" 0 1) = true ∧
    (sysPartial.txns.any fun t => t.odId = winOdId "auc1" "B2" 0 2) = true ∧
    (sysPartial.txns.any fun t => t.odId = winOdId "auc1" "A" 0 0) = false ∧
    sysPartial.auction.state = AuctionState.active ∧
    sysPartial.auction.currentRound = -999 ∧
    ((processRoundEnd sysPartial 0 9000).txns.any fun t =>
      t.odId = winOdId "auc1" "A" 0 0) = true ∧
    (processRoundEnd sysPartial 0 9000).giftLog =
      sysPartial.giftLog ++ [("A", 5)] := by
  decide

/-! ### Prize conservation lemmas -/

lemma addGifts_txns (s : Sys) (u g : String) (c : Nat) :
    (addGifts s u g c).txns = s.txns := rfl

lemma deductBalance_txns (s : Sys) (u : String) (amt : Nat) :
    (deductBalance s u amt).txns = s.txns := rfl

lemma deleteBetL_txns (s : Sys) (u : String) : (deleteBetL s u).txns = s.txns := rfl

lemma addGifts_giftLog (s : Sys) (u g : String) (c : Nat) :
    (addGifts s u g c).giftLog = s.giftLog ++ [(u, c)] := rfl

/-- Status transitions do not change which WIN records exist. -/
lemma updateStatus_isWinnerAlreadyProcessed (l : List Txn) (u0 a0 : String)
    (st : TxnStatus) (u2 a2 : String) (r2 : Nat) :
    isWinnerAlreadyProcessed (updateUserAuctionTransactionsStatus l u0 a0 st) u2 a2 r2 =
      isWinnerAlreadyProcessed l u2 a2 r2 := by
  unfold isWinnerAlreadyProcessed updateUserAuctionTransactionsStatus
  induction l with
  | nil => rfl
  | cons t ts ih =>
      simp only [List.map_cons, List.any_cons, ih]
      congr 1
      by_cases hc : t.odUserId = u0 ∧ t.odAuctionId = a0 ∧ t.odStatus = TxnStatus.active
      · simp [hc]
      · simp [hc]

/-- Status transitions do not change which op-ids exist. -/
lemma updateStatus_any_odId (l : List Txn) (u0 a0 : String) (st : TxnStatus)
    (K : String) :
    ((updateUserAuctionTransactionsStatus l u0 a0 st).any fun t => t.odId = K) =
      (l.any fun t => t.odId = K) := by
  unfold updateUserAuctionTransactionsStatus
  induction l with
  | nil => rfl
  | cons t ts ih =>
      simp only [List.map_cons, List.any_cons, ih]
      congr 1
      by_cases hc : t.odUserId = u0 ∧ t.odAuctionId = a0 ∧ t.odStatus = TxnStatus.active
      · simp [hc]
      · simp [hc]

/-- Processing one winner performs exactly one gift credit: their prize. -/
lemma processWinner_giftLog (s : Sys) (aId g : String) (r p : Nat) (u : String)
    (amt pz : Nat) (h : isWinnerAlreadyProcessed s.txns u aId r = false) :
    (processWinner s aId g r p u amt pz).giftLog = s.giftLog ++ [(u, pz)] := by
  unfold processWinner
  rw [if_neg (by simp [h])]
  rfl

/-- Processing winner `u` leaves every other user's processed flag alone. -/
lemma processWinner_unprocessed_other (s : Sys) (aId g : String) (r p : Nat)
    (u : String) (amt pz : Nat) (u2 a2 : String) (r2 : Nat) (hne : u2 ≠ u) :
    isWinnerAlreadyProcessed (processWinner s aId g r p u amt pz).txns u2 a2 r2 =
      isWinnerAlreadyProcessed s.txns u2 a2 r2 := by
  unfold processWinner
  split
  · rfl
  · show isWinnerAlreadyProcessed
      (updateUserAuctionTransactionsStatus
        (createWinTransaction s.txns u aId r p amt pz) u aId .won) u2 a2 r2 = _
    rw [updateStatus_isWinnerAlreadyProcessed]
    unfold createWinTransaction insertIfAbsent
    split
    · rfl
    · unfold isWinnerAlreadyProcessed
      rw [List.any_append]
      simp [Ne.symm hne]

/-- Processing winner `u` introduces only `u`'s WIN op-id. -/
lemma processWinner_any_odId (s : Sys) (aId g : String) (r p : Nat) (u : String)
    (amt pz : Nat) (K : String) (hK : winOdId aId u r p ≠ K) :
    ((processWinner s aId g r p u amt pz).txns.any fun t => t.odId = K) =
      (s.txns.any fun t => t.odId = K) := by
  unfold processWinner
  split
  · rfl
  · show ((updateUserAuctionTransactionsStatus
      (createWinTransaction s.txns u aId r p amt pz) u aId .won).any
        fun t => t.odId = K) = _
    rw [updateStatus_any_odId]
    unfold createWinTransaction insertIfAbsent
    split
    · rfl
    · rw [List.any_append]
      simp [hK]

/-- The winner fold credits exactly one prize per distinct top bettor. -/
lemma foldl_processWinner_giftLog (aId g : String) (r : Nat) (prizes : List Nat)
    (l : List (Nat × (String × Nat))) (s : Sys)
    (hun : ∀ ib ∈ l, isWinnerAlreadyProcessed s.txns ib.2.1 aId r = false)
    (hpw : l.Pairwise fun x y => x.2.1 ≠ y.2.1) :
    (l.foldl (fun acc ib => processWinner acc aId g r (ib.1 + 1) ib.2.1 ib.2.2
      (prizes.getD ib.1 0)) s).giftLog =
    s.giftLog ++ l.map fun ib => (ib.2.1, prizes.getD ib.1 0) := by
  induction l generalizing s with
  | nil => simp
  | cons x xs ih =>
      rw [List.foldl_cons]
      have hx : isWinnerAlreadyProcessed s.txns x.2.1 aId r = false :=
        hun x (List.mem_cons_self x xs)
      have hrest : ∀ ib ∈ xs, isWinnerAlreadyProcessed
          (processWinner s aId g r (x.1 + 1) x.2.1 x.2.2 (prizes.getD x.1 0)).txns
          ib.2.1 aId r = false := by
        intro ib hib
        rw [processWinner_unprocessed_other s aId g r (x.1 + 1) x.2.1 x.2.2
          (prizes.getD x.1 0) ib.2.1 aId r
          (Ne.symm ((List.pairwise_cons.mp hpw).1 ib hib))]
        exact hun ib (List.mem_cons_of_mem _ hib)
      rw [ih _ hrest (List.pairwise_cons.mp hpw).2,
        processWinner_giftLog s aId g r (x.1 + 1) x.2.1 x.2.2 (prizes.getD x.1 0) hx]
      simp

/-- The winner fold adds no op-id other than the winners' WIN ids. -/
lemma foldl_processWinner_any_odId (aId g : String) (r : Nat) (prizes : List Nat)
    (K : String) (l : List (Nat × (String × Nat))) (s : Sys)
    (hK : ∀ ib ∈ l, winOdId aId ib.2.1 r (ib.1 + 1) ≠ K) :
    ((l.foldl (fun acc ib => processWinner acc aId g r (ib.1 + 1) ib.2.1 ib.2.2
      (prizes.getD ib.1 0)) s).txns.any fun t => t.odId = K) =
    (s.txns.any fun t => t.odId = K) := by
  induction l generalizing s with
  | nil => rfl
  | cons x xs ih =>
      rw [List.foldl_cons, ih _ (fun ib hib => hK ib (List.mem_cons_of_mem _ hib)),
        processWinner_any_odId s aId g r (x.1 + 1) x.2.1 x.2.2 (prizes.getD x.1 0) K
          (hK x (List.mem_cons_self x xs))]

/-- Summing `prizes.getD` over an index enumeration is a partial prize sum. -/
lemma sum_enumFrom_getD (prizes : List Nat) (l : List (String × Nat)) (k : Nat)
    (h : k + l.length ≤ prizes.length) :
    ((l.enumFrom k).map fun ib => prizes.getD ib.1 0).sum =
      ((prizes.drop k).take l.length).sum := by
  induction l generalizing k with
  | nil => simp
  | cons x xs ih =>
      have hk : k < prizes.length := by
        simp at h
        omega
      rw [show (x :: xs).enumFrom k = (k, x) :: xs.enumFrom (k + 1) from rfl,
        List.map_cons, List.sum_cons,
        ih (k + 1) (by simp at h ⊢; omega),
        List.drop_eq_getElem_cons hk, List.length_cons, List.take_succ_cons,
        List.sum_cons, List.getD_eq_getElem prizes 0 hk]

lemma getTopBets_length_le (z : List (String × Nat)) (limit : Nat) :
    (getTopBets z limit).length ≤ limit := by
  simp [getTopBets]

/-- The gift credits of one round's settlement sum to the configured
prize vector. -/
lemma settleGifts_giftLog (s : Sys) (a : AuctionDoc) (r : Nat)
    (round : AuctionRound) (tb : List (String × Nat))
    (hlen : tb.length ≤ round.prizes.length)
    (hnp : ∀ ib ∈ tb.enum, isWinnerAlreadyProcessed s.txns ib.2.1 a.id r = false)
    (hauth : isWinnerAlreadyProcessed s.txns a.authorId a.id r = false)
    (hpw : tb.enum.Pairwise fun x y => x.2.1 ≠ y.2.1)
    (hKfree : (s.txns.any fun t => t.odId = unclaimedOdId a.id a.authorId r) = false)
    (hsep : ∀ ib ∈ tb.enum,
      winOdId a.id ib.2.1 r (ib.1 + 1) ≠ unclaimedOdId a.id a.authorId r) :
    ∃ creds : List (String × Nat),
      (settleGifts s a r round tb).giftLog = s.giftLog ++ creds ∧
      (creds.map Prod.snd).sum = round.prizes.sum := by
  have hsplit : (round.prizes.take tb.length).sum +
      (round.prizes.drop tb.length).sum = round.prizes.sum := by
    rw [← List.sum_append, List.take_append_drop]
  have hfold := foldl_processWinner_giftLog a.id a.giftName r round.prizes tb.enum s
    hnp hpw
  have hmapsum : ((tb.enum.map fun ib => (ib.2.1, round.prizes.getD ib.1 0)).map
      Prod.snd).sum = (round.prizes.take tb.length).sum := by
    rw [List.map_map]
    have h0 := sum_enumFrom_getD round.prizes tb 0 (by omega)
    simp only [List.drop_zero] at h0
    exact h0
  by_cases hE : tb.isEmpty = true
  · refine ⟨[(a.authorId, round.prizes.sum)], ?_, by simp⟩
    unfold settleGifts
    rw [if_pos hE, if_neg (by simp [hauth])]
    rfl
  · by_cases hlt : tb.length < round.prizes.length
    · by_cases hu : 0 < (round.prizes.drop tb.length).sum
      · have hany : ((tb.enum.foldl
            (fun acc ib => processWinner acc a.id a.giftName r
              (ib.1 + 1) ib.2.1 ib.2.2 (round.prizes.getD ib.1 0)) s).txns.any
            fun t => t.odId = unclaimedOdId a.id a.authorId r) = false := by
          rw [foldl_processWinner_any_odId a.id a.giftName r round.prizes _ tb.enum s hsep]
          exact hKfree
        refine ⟨(tb.enum.map fun ib => (ib.2.1, round.prizes.getD ib.1 0)) ++
          [(a.authorId, (round.prizes.drop tb.length).sum)], ?_, ?_⟩
        · simp only [settleGifts, hE, Bool.false_eq_true, if_false, hlt, if_true,
            hu, hany, addGifts_giftLog]
          rw [hfold]
          simp
        · simp only [List.map_append, List.sum_append, hmapsum]
          simp only [List.map_cons, List.map_nil, List.sum_cons, List.sum_nil]
          omega
      · refine ⟨tb.enum.map fun ib => (ib.2.1, round.prizes.getD ib.1 0), ?_, ?_⟩
        · simp only [settleGifts, hE, Bool.false_eq_true, if_false, hlt, if_true, hu]
          exact hfold
        · rw [hmapsum]
          omega
    · refine ⟨tb.enum.map fun ib => (ib.2.1, round.prizes.getD ib.1 0), ?_, ?_⟩
      · simp only [settleGifts, hE, Bool.false_eq_true, if_false, hlt]
        exact hfold
      · rw [hmapsum]
        have : tb.length = round.prizes.length := by omega
        rw [this, List.take_length]

/-- C5: for a settled round, the prize counts credited by settlement — the
winners' prizes plus any refund to the author (the no-bidders refund or
the unclaimed-slots refund) — sum exactly to the round's configured prize
vector, whether the round had zero bidders, fewer bidders than prize
slots, or a full top-N.  The hypotheses say this is the round's first
settlement (no WIN/refund flags yet) and state the ranked set's member
uniqueness and op-id disjointness, which Redis and the id formats
guarantee. -/
theorem round_prize_conservation (s : Sys) (r now : Nat) (round : AuctionRound)
    (h1 : s.auction.state = AuctionState.active)
    (h2 : s.auction.currentRound = (r : Int) ∨ s.auction.currentRound = -999)
    (h3 : s.auction.rounds.get? r = some round)
    (hnp : ∀ ib ∈ (getTopBets s.zbets round.prizes.length).enum,
        isWinnerAlreadyProcessed s.txns ib.2.1 s.auction.id r = false)
    (hauth : isWinnerAlreadyProcessed s.txns s.auction.authorId s.auction.id r = false)
    (hpw : (getTopBets s.zbets round.prizes.length).enum.Pairwise
        fun x y => x.2.1 ≠ y.2.1)
    (hKfree : (s.txns.any fun t =>
        t.odId = unclaimedOdId s.auction.id s.auction.authorId r) = false)
    (hsep : ∀ ib ∈ (getTopBets s.zbets round.prizes.length).enum,
        winOdId s.auction.id ib.2.1 r (ib.1 + 1) ≠
          unclaimedOdId s.auction.id s.auction.authorId r) :
    ∃ creds : List (String × Nat),
      (processRoundEnd s r now).giftLog = s.giftLog ++ creds ∧
      (creds.map Prod.snd).sum = round.prizes.sum := by
  obtain ⟨creds, hlog, hsum⟩ :=
    settleGifts_giftLog { s with auction := { s.auction with currentRound := -999 } }
      s.auction r round (getTopBets s.zbets round.prizes.length)
      (getTopBets_length_le s.zbets round.prizes.length) hnp hauth hpw hKfree hsep
  refine ⟨creds, ?_, hsum⟩
  unfold processRoundEnd
  rw [if_pos ⟨h1, h2⟩]
  simp only [h3]
  by_cases hL : s.auction.rounds.length - 1 ≤ r
  · simp only [hL, if_true, finishAuction_giftLog]
    exact hlog
  · simp only [hL, if_false]
    exact hlog

theorem round_prize_conservation_witness :
    (sysDemo.auction.state = AuctionState.active ∧
      sysDemo.auction.currentRound = (0 : Int) ∧
      sysDemo.auction.rounds.get? 0 = some ⟨3, [3, 2]⟩ ∧
      (∀ ib ∈ (getTopBets sysDemo.zbets 2).enum,
        isWinnerAlreadyProcessed sysDemo.txns ib.2.1 "auc1" 0 = false) ∧
      isWinnerAlreadyProcessed sysDemo.txns "A" "auc1" 0 = false) ∧
    ∃ creds : List (String × Nat),
      (processRoundEnd sysDemo 0 5000).giftLog = sysDemo.giftLog ++ creds ∧
      (creds.map Prod.snd).sum = ([3, 2] : List Nat).sum :=
  ⟨⟨by decide, by decide, by decide, by decide, by decide⟩,
   round_prize_conservation sysDemo 0 5000 ⟨3, [3, 2]⟩ (by decide)
     (Or.inl (by decide)) (by decide) (by decide) (by decide) (by decide)
     (by decide) (by decide)⟩

/-! ### Anti-snipe `extendRound` (`src/services/rounds.ts`) -/

/-- `MAX_ANTI_SNIPE_EXTENSIONS = 5`. -/
def MAX_ANTI_SNIPE_EXTENSIONS : Nat := 5

/-- `ANTI_SNIPE_THRESHOLD_MS = 10 * 1000`. -/
def ANTI_SNIPE_THRESHOLD_MS : Nat := 10000

/-- The delayed end-round job as `extendRound` sees it: `timestamp` is the
job's creation time (ms) and `delay` its `opts.delay` (ms; 0 is treated as
absent, as the code tests `job.opts.delay` for truthiness). -/
structure SchedJob where
  timestamp : Nat
  delay : Nat
deriving DecidableEq, Repr

/-- The state `extendRound` touches for one `(auctionId, roundIndex)`:
its in-memory extension counter, the pending end job, and the auction's
`roundEndTime`. -/
structure ExtendState where
  count : Nat
  job : Option SchedJob
  roundEndTime : Option Nat
deriving DecidableEq, Repr

/-- `extendRound(auctionId, roundIndex, extendSeconds)` at clock `now`:
reject when the per-round counter reached the maximum, the job is gone,
the job's real remaining time is not positive, or the remaining time
already exceeds the anti-snipe threshold; otherwise re-enqueue the job
with `delay = remaining + extendSeconds·1000`, write the new
`roundEndTime` and bump the counter. -/
def extendRound (st : ExtendState) (now : Nat) (extendSeconds : Nat) :
    Bool × ExtendState :=
  if MAX_ANTI_SNIPE_EXTENSIONS ≤ st.count then (false, st)
  else
    match st.job with
    | none => (false, st)
    | some job =>
        let delayUntil : Nat := if job.delay ≠ 0 then job.timestamp + job.delay else 0
        if delayUntil ≤ now then (false, st)
        else
          let remaining := delayUntil - now
          if ANTI_SNIPE_THRESHOLD_MS < remaining then (false, st)
          else
            let newDelay := remaining + extendSeconds * 1000
            (true,
              { count := st.count + 1
                job := some ⟨now, newDelay⟩
                roundEndTime := some (now + newDelay) })

/-- C7 counterexample: with the extension counter below the maximum and a
pending job whose remaining time is 0 (not above the 10 s threshold), the
claim's "otherwise" clause demands a successful extension, but the code
returns `false` and changes nothing. -/
theorem extendRound_zero_remaining_counterexample :
    (ExtendState.mk 0 (some ⟨100, 50⟩) (some 150)).count <
      MAX_ANTI_SNIPE_EXTENSIONS ∧
    ¬ ANTI_SNIPE_THRESHOLD_MS < (100 + 50) - 150 ∧
    extendRound ⟨0, some ⟨100, 50⟩, some 150⟩ 150 5 =
      (false, ⟨0, some ⟨100, 50⟩, some 150⟩) := by
  decide

/-- C7 (amended): `extendRound` returns `false` and leaves the job,
`roundEndTime` and counter unchanged exactly when the per-round counter
has reached 5, or the job is missing, or the job's real remaining time is
not positive, or that remaining time exceeds the 10-second threshold;
otherwise it returns `true`, re-enqueues the job with
`delay = remaining + E·1000`, writes `roundEndTime = now + delay` and
increments the counter — so a round is extended at most 5 times. -/
theorem extendRound_characterization (st : ExtendState) (now E : Nat) :
    ((extendRound st now E).1 = false → (extendRound st now E).2 = st) ∧
    ((extendRound st now E).1 = false ↔
      MAX_ANTI_SNIPE_EXTENSIONS ≤ st.count ∨
      st.job = none ∨
      (∃ job, st.job = some job ∧
        (if job.delay ≠ 0 then job.timestamp + job.delay else 0) ≤ now) ∨
      (∃ job, st.job = some job ∧
        ANTI_SNIPE_THRESHOLD_MS <
          (if job.delay ≠ 0 then job.timestamp + job.delay else 0) - now)) ∧
    (∀ job, st.job = some job →
      st.count < MAX_ANTI_SNIPE_EXTENSIONS →
      now < (if job.delay ≠ 0 then job.timestamp + job.delay else 0) →
      ((if job.delay ≠ 0 then job.timestamp + job.delay else 0) - now)
        ≤ ANTI_SNIPE_THRESHOLD_MS →
      extendRound st now E =
        (true,
          { count := st.count + 1
            job := some ⟨now,
              ((if job.delay ≠ 0 then job.timestamp + job.delay else 0) - now) +
                E * 1000⟩
            roundEndTime := some (now +
              (((if job.delay ≠ 0 then job.timestamp + job.delay else 0) - now) +
                E * 1000)) })) := by
  by_cases h1 : MAX_ANTI_SNIPE_EXTENSIONS ≤ st.count
  · have he : extendRound st now E = (false, st) := by
      unfold extendRound
      rw [if_pos h1]
    refine ⟨fun _ => by rw [he], ?_, ?_⟩
    · rw [he]
      simp only [true_iff]
      exact Or.inl h1
    · intro job _ hcnt
      omega
  · rcases hjob : st.job with _ | job
    · have he : extendRound st now E = (false, st) := by
        unfold extendRound
        rw [if_neg h1, hjob]
      refine ⟨fun _ => by rw [he], ?_, ?_⟩
      · rw [he]
        simp
      · intro job hj
        exact absurd hj (by simp)
    · by_cases h2 : (if job.delay ≠ 0 then job.timestamp + job.delay else 0) ≤ now
      · have he : extendRound st now E = (false, st) := by
          unfold extendRound
          rw [if_neg h1, hjob]
          simp only [h2, if_true]
        refine ⟨fun _ => by rw [he], ?_, ?_⟩
        · rw [he]
          simp only [true_iff]
          exact Or.inr (Or.inr (Or.inl ⟨job, rfl, h2⟩))
        · intro job2 hj2 _ hlt _
          injection hj2 with h4
          subst h4
          omega
      · by_cases h3 : ANTI_SNIPE_THRESHOLD_MS <
            (if job.delay ≠ 0 then job.timestamp + job.delay else 0) - now
        · have he : extendRound st now E = (false, st) := by
            unfold extendRound
            rw [if_neg h1, hjob]
            simp only [h2, if_false, h3, if_true]
          refine ⟨fun _ => by rw [he], ?_, ?_⟩
          · rw [he]
            simp only [true_iff]
            exact Or.inr (Or.inr (Or.inr ⟨job, rfl, h3⟩))
          · intro job2 hj2 _ _ hle
            injection hj2 with h4
            subst h4
            omega
        · have he : extendRound st now E =
              (true,
                { count := st.count + 1
                  job := some ⟨now,
                    ((if job.delay ≠ 0 then job.timestamp + job.delay else 0) - now) +
                      E * 1000⟩
                  roundEndTime := some (now +
                    (((if job.delay ≠ 0 then job.timestamp + job.delay else 0) - now) +
                      E * 1000)) }) := by
            unfold extendRound
            rw [if_neg h1, hjob]
            simp only [h2, if_false, h3, if_true]
          refine ⟨?_, ?_, ?_⟩
          · intro hf
            rw [he] at hf
            simp at hf
          · rw [he]
            simp only [Bool.true_eq_false, false_iff]
            intro hcase
            rcases hcase with hc | hc | ⟨job2, hj2, hc⟩ | ⟨job2, hj2, hc⟩
            · exact h1 hc
            · exact Option.noConfusion hc
            · injection hj2 with h4
              subst h4
              exact h2 hc
            · injection hj2 with h4
              subst h4
              exact h3 hc
          · intro job2 hj2 _ _ _
            injection hj2 with h4
            subst h4
            exact he

theorem extendRound_characterization_witness :
    ((ExtendState.mk 1 (some ⟨1000, 8000⟩) (some 9000)).count <
        MAX_ANTI_SNIPE_EXTENSIONS ∧
      (3000 : Nat) < 1000 + 8000 ∧
      (1000 + 8000) - 3000 ≤ ANTI_SNIPE_THRESHOLD_MS) ∧
    extendRound ⟨1, some ⟨1000, 8000⟩, some 9000⟩ 3000 5 =
      (true, ⟨2, some ⟨3000, 11000⟩, some 14000⟩) ∧
    (extendRound ⟨5, some ⟨1000, 8000⟩, some 9000⟩ 3000 5).2 =
      ⟨5, some ⟨1000, 8000⟩, some 9000⟩ :=
  ⟨⟨by decide, by decide, by decide⟩,
   (extendRound_characterization ⟨1, some ⟨1000, 8000⟩, some 9000⟩ 3000 5).2.2
     ⟨1000, 8000⟩ rfl (by decide) (by decide) (by decide),
   (extendRound_characterization ⟨5, some ⟨1000, 8000⟩, some 9000⟩ 3000 5).1
     (by decide)⟩

/-! ### Rate-limit middleware (`src/middleware/rateLimit.ts`) -/

/-- What the middleware does with a request: pass it on or answer 429. -/
inductive RLOutcome
  | next
  | reject429
deriving DecidableEq, Repr

/-- The middleware's observable response side: outcome plus the
`X-RateLimit-Limit` / `X-RateLimit-Remaining` headers when set
(`Retry-After` carries the key's TTL, which the model does not track). -/
structure RLResult where
  outcome : RLOutcome
  limitHeader : Option Nat
  remainingHeader : Option Nat
deriving DecidableEq, Repr

/-- The per-key counters (`rl:{...}:{userId}`) within one TTL window. -/
structure RLState where
  counters : String → Nat

/-- The `rateLimit(options)` handler body for one request: requests with
no (or an empty) `x-user-id` header pass straight through; otherwise
`INCR` the `(keyPrefix, userId)` counter, set the rate headers
(`Remaining` is clamped at 0 by Nat subtraction, as `Math.max(0, ...)`),
and reject with 429 exactly when the incremented counter exceeds the
maximum. -/
def rateLimit (windowMs maxRequests : Nat) (keyPref : String) (st : RLState)
    (userHeader : Option String) : RLResult × RLState :=
  match userHeader with
  | none => (⟨.next, none, none⟩, st)
  | some uid =>
      if uid = "" then (⟨.next, none, none⟩, st)
      else
        let key := keyPref ++ ":" ++ uid
        let current := st.counters key + 1
        let st2 : RLState := ⟨upd st.counters key current⟩
        if maxRequests < current then
          (⟨.reject429, some maxRequests, some (maxRequests - current)⟩, st2)
        else
          (⟨.next, some maxRequests, some (maxRequests - current)⟩, st2)

/-- C10: a request without an `x-user-id` header (or with an empty one)
bypasses rate limiting entirely — no counter is incremented, no headers
are set, and the response is never 429; with a user id, the counter is
incremented and the 429 rejection happens exactly when the incremented
per-(prefix, user) counter exceeds the configured maximum. -/
theorem rateLimit_bypass_and_threshold (w m : Nat) (kp : String) (st : RLState) :
    rateLimit w m kp st none = (⟨.next, none, none⟩, st) ∧
    rateLimit w m kp st (some "") = (⟨.next, none, none⟩, st) ∧
    ∀ uid : String, uid ≠ "" →
      (rateLimit w m kp st (some uid)).2.counters (kp ++ ":" ++ uid) =
        st.counters (kp ++ ":" ++ uid) + 1 ∧
      ((rateLimit w m kp st (some uid)).1.outcome = RLOutcome.reject429 ↔
        m < st.counters (kp ++ ":" ++ uid) + 1) := by
  refine ⟨rfl, rfl, fun uid hu => ⟨?_, ?_⟩⟩
  · simp only [rateLimit, hu, if_false]
    split <;> exact upd_self _ _ _
  · by_cases hm : m < st.counters (kp ++ ":" ++ uid) + 1
    · simp [rateLimit, hu, hm]
    · simp [rateLimit, hu, hm]

/-- A counter state in which `alice` has already used her five bids. -/
def rlDemo : RLState := ⟨fun k => if k = "rl:bet:alice" then 5 else 0⟩

theorem rateLimit_bypass_and_threshold_witness :
    (("alice" : String) ≠ "") ∧
    rateLimit 1000 5 "rl:bet" rlDemo none = (⟨.next, none, none⟩, rlDemo) ∧
    (rateLimit 1000 5 "rl:bet" rlDemo (some "alice")).2.counters "rl:bet:alice" =
      rlDemo.counters "rl:bet:alice" + 1 ∧
    ((rateLimit 1000 5 "rl:bet" rlDemo (some "alice")).1.outcome =
        RLOutcome.reject429 ↔
      5 < rlDemo.counters "rl:bet:alice" + 1) :=
  ⟨by decide,
   (rateLimit_bypass_and_threshold 1000 5 "rl:bet" rlDemo).1,
   ((rateLimit_bypass_and_threshold 1000 5 "rl:bet" rlDemo).2.2 "alice" (by decide)).1,
   ((rateLimit_bypass_and_threshold 1000 5 "rl:bet" rlDemo).2.2 "alice" (by decide)).2⟩

end CRPTBOT
